import Mathlib

/-!
Verification of the PS/2-to-USB keyboard bridge core (`src/ps2.c`):
the frame decoder (`ps2_task`) and the keyboard state tracker
(`press_key`, `release_key`, `handle_scancode`) together with the two
scancode translation tables, embedded shallowly.  C `uint8_t` values are
modelled as `Nat` (kept below 256 by hypotheses where the proofs need it);
the global mutable state becomes explicit state-passing records; the GPIO
reads of `ps2_task` become the `clk`/`data` parameters.
-/

set_option maxRecDepth 8192

namespace Ps2

/-- `scancode_to_hid` table from `src/ps2.c` (plain, non-extended codes).
Index is the PS/2 Set-2 scancode, value is the HID keycode; 0 = unmapped;
values 0xF7..0xFF are the modifier / Caps-Lock sentinels. -/
def scancode_to_hid : Nat → Nat
  | 0x01 => 0x42
  | 0x03 => 0x3E
  | 0x04 => 0x3C
  | 0x05 => 0x3A
  | 0x06 => 0x3B
  | 0x07 => 0x45
  | 0x09 => 0x43
  | 0x0A => 0x41
  | 0x0B => 0x3F
  | 0x0C => 0x3D
  | 0x0D => 0x2B
  | 0x0E => 0x35
  | 0x11 => 0xFF
  | 0x12 => 0xFE
  | 0x14 => 0xFD
  | 0x15 => 0x14
  | 0x16 => 0x1E
  | 0x1A => 0x1D
  | 0x1B => 0x16
  | 0x1C => 0x04
  | 0x1D => 0x1A
  | 0x1E => 0x1F
  | 0x21 => 0x06
  | 0x22 => 0x1B
  | 0x23 => 0x07
  | 0x24 => 0x08
  | 0x25 => 0x21
  | 0x26 => 0x20
  | 0x29 => 0x2C
  | 0x2A => 0x19
  | 0x2B => 0x09
  | 0x2C => 0x17
  | 0x2D => 0x15
  | 0x2E => 0x22
  | 0x31 => 0x11
  | 0x32 => 0x05
  | 0x33 => 0x0B
  | 0x34 => 0x0A
  | 0x35 => 0x1C
  | 0x36 => 0x23
  | 0x3A => 0x10
  | 0x3B => 0x0D
  | 0x3C => 0x18
  | 0x3D => 0x24
  | 0x3E => 0x25
  | 0x41 => 0x36
  | 0x42 => 0x0E
  | 0x43 => 0x0C
  | 0x44 => 0x12
  | 0x45 => 0x27
  | 0x46 => 0x26
  | 0x49 => 0x37
  | 0x4A => 0x38
  | 0x4B => 0x0F
  | 0x4C => 0x33
  | 0x4D => 0x13
  | 0x4E => 0x2D
  | 0x52 => 0x34
  | 0x54 => 0x2F
  | 0x55 => 0x2E
  | 0x58 => 0xFC
  | 0x59 => 0xFB
  | 0x5A => 0x28
  | 0x5B => 0x30
  | 0x5D => 0x31
  | 0x66 => 0x2A
  | 0x69 => 0x59
  | 0x6B => 0x5C
  | 0x6C => 0x5F
  | 0x70 => 0x62
  | 0x71 => 0x63
  | 0x72 => 0x5A
  | 0x73 => 0x5D
  | 0x74 => 0x5E
  | 0x75 => 0x60
  | 0x76 => 0x29
  | 0x77 => 0x47
  | 0x78 => 0x44
  | 0x79 => 0x57
  | 0x7A => 0x5B
  | 0x7B => 0x56
  | 0x7C => 0x55
  | 0x7D => 0x61
  | 0x7E => 0x53
  | 0x83 => 0x40
  | _ => 0

/-- `extended_scancode_to_hid` table from `src/ps2.c` (codes after the 0xE0
extended prefix). -/
def extended_scancode_to_hid : Nat → Nat
  | 0x11 => 0xFA
  | 0x14 => 0xF9
  | 0x1F => 0xF8
  | 0x27 => 0xF7
  | 0x2F => 0x65
  | 0x4A => 0x54
  | 0x5A => 0x58
  | 0x69 => 0x4D
  | 0x6B => 0x50
  | 0x6C => 0x4A
  | 0x70 => 0x49
  | 0x71 => 0x4C
  | 0x72 => 0x51
  | 0x74 => 0x4F
  | 0x75 => 0x52
  | 0x7A => 0x4E
  | 0x7D => 0x4B
  | _ => 0

/-- `get_modifier_mask` from `src/ps2.c`: the modifier bit for a sentinel
keycode, 0 for non-modifiers (including the Caps-Lock sentinel 0xFC). -/
def get_modifier_mask (hid_code : Nat) : Nat :=
  if hid_code = 0xFF then 0x04
  else if hid_code = 0xFE then 0x02
  else if hid_code = 0xFD then 0x01
  else if hid_code = 0xFC then 0
  else if hid_code = 0xFB then 0x20
  else if hid_code = 0xFA then 0x40
  else if hid_code = 0xF9 then 0x10
  else if hid_code = 0xF8 then 0x08
  else if hid_code = 0xF7 then 0x80
  else 0

/-- The Keyboard State: the globals `g_modifiers`, `g_keys[6]`,
`g_state_changed` of `src/ps2.c`. -/
structure KState where
  modifiers : Nat
  keys : List Nat
  changed : Bool
deriving DecidableEq

/-- The Caps-Lock special case shared by `press_key` and `release_key`:
sentinel 0xFC is remapped to the ordinary HID Caps-Lock keycode 0x39. -/
def capsRemap (hid_code : Nat) : Nat :=
  if hid_code = 0xFC then 0x39 else hid_code

/-- The second loop of `press_key`: store `hid` in the first empty (zero)
slot; `none` when no empty slot exists. -/
def insertFirstZero : List Nat → Nat → Option (List Nat)
  | [], _ => none
  | k :: ks, hid =>
    if k = 0 then some (hid :: ks)
    else (insertFirstZero ks hid).map (fun ks2 => k :: ks2)

/-- The loop of `release_key`: zero the first slot equal to `hid`;
`none` when `hid` is not present. -/
def removeFirst : List Nat → Nat → Option (List Nat)
  | [], _ => none
  | k :: ks, hid =>
    if k = hid then some (0 :: ks)
    else (removeFirst ks hid).map (fun ks2 => k :: ks2)

/-- `press_key` from `src/ps2.c`. -/
def press_key (hid_code : Nat) (s : KState) : KState :=
  if hid_code = 0 then s
  else
    let mod_mask := get_modifier_mask hid_code
    if mod_mask ≠ 0 then
      if s.modifiers &&& mod_mask = 0 then
        { s with modifiers := s.modifiers ||| mod_mask, changed := true }
      else s
    else
      let hid2 := capsRemap hid_code
      if hid2 ∈ s.keys then s
      else
        match insertFirstZero s.keys hid2 with
        | some ks => { s with keys := ks, changed := true }
        | none => s

/-- `release_key` from `src/ps2.c`; `g_modifiers &= ~mod_mask` on a
`uint8_t` is `&&& (255 ^^^ mod_mask)`. -/
def release_key (hid_code : Nat) (s : KState) : KState :=
  if hid_code = 0 then s
  else
    let mod_mask := get_modifier_mask hid_code
    if mod_mask ≠ 0 then
      if s.modifiers &&& mod_mask ≠ 0 then
        { s with modifiers := s.modifiers &&& (255 ^^^ mod_mask), changed := true }
      else s
    else
      let hid2 := capsRemap hid_code
      match removeFirst s.keys hid2 with
      | some ks => { s with keys := ks, changed := true }
      | none => s

/-- The table lookup at the top of `handle_scancode`. -/
def mapScancode (is_ext : Bool) (code : Nat) : Nat :=
  if is_ext then extended_scancode_to_hid code else scancode_to_hid code

/-- `handle_scancode` from `src/ps2.c`. -/
def handle_scancode (code : Nat) (is_brk is_ext : Bool) (s : KState) : KState :=
  let hid_code := mapScancode is_ext code
  if hid_code = 0 then s
  else if is_brk then release_key hid_code s
  else press_key hid_code s

/-- The full decoder state: the Keyboard State plus the frame-decoding
globals `frame_bit_index`, `scancode_byte`, `break_pending`,
`extended_pending`, `last_clk` of `src/ps2.c`. -/
structure PS2 where
  kbd : KState
  bit_index : Nat
  byte_value : Nat
  break_pending : Bool
  extended_pending : Bool
  last_clk : Bool
deriving DecidableEq

/-- `ps2_init` from `src/ps2.c`; `clk0` is the initial level read from the
clock pin. -/
def ps2_init (clk0 : Bool) : PS2 :=
  { kbd := { modifiers := 0, keys := [0, 0, 0, 0, 0, 0], changed := false }
    bit_index := 0
    byte_value := 0
    break_pending := false
    extended_pending := false
    last_clk := clk0 }

/-- The data-bit accumulation of `ps2_task`: `scancode_byte >>= 1` then
`scancode_byte |= 0x80` when the sampled data bit is high. -/
def shiftIn (bv : Nat) (data_bit : Bool) : Nat :=
  (bv >>> 1) ||| (if data_bit then 0x80 else 0)

/-- The `frame_bit_index == 10` (stop bit) branch of `ps2_task`: prefix
bytes 0xF0 / 0xE0 set the pending flags, any other byte is dispatched to
`handle_scancode` and both flags are cleared; the frame accumulator is
reset either way. -/
def stop_step (clk : Bool) (s : PS2) : PS2 :=
  let code := s.byte_value
  if code = 0xF0 then
    { s with break_pending := true, bit_index := 0, byte_value := 0, last_clk := clk }
  else if code = 0xE0 then
    { s with extended_pending := true, bit_index := 0, byte_value := 0, last_clk := clk }
  else
    { s with kbd := handle_scancode code s.break_pending s.extended_pending s.kbd
             break_pending := false
             extended_pending := false
             bit_index := 0
             byte_value := 0
             last_clk := clk }

/-- `ps2_task` from `src/ps2.c`; `clk` and `data` are the levels read from
the clock and data pins on this poll. -/
def ps2_task (clk data : Bool) (s : PS2) : PS2 :=
  if s.last_clk = true ∧ clk = false then
    if s.bit_index = 0 then
      { s with bit_index := s.bit_index + 1, last_clk := clk }
    else if 1 ≤ s.bit_index ∧ s.bit_index ≤ 8 then
      { s with byte_value := shiftIn s.byte_value data
               bit_index := s.bit_index + 1
               last_clk := clk }
    else if s.bit_index = 9 then
      { s with bit_index := s.bit_index + 1, last_clk := clk }
    else if s.bit_index = 10 then
      stop_step clk s
    else
      { s with bit_index := s.bit_index + 1, last_clk := clk }
  else
    { s with last_clk := clk }

/-- `ps2_get_modifiers`: returns `g_modifiers` and (being free of
assignments) the unchanged state. -/
def ps2_get_modifiers (s : PS2) : Nat × PS2 :=
  (s.kbd.modifiers, s)

/-- `ps2_get_keys`: returns `g_keys` and the unchanged state. -/
def ps2_get_keys (s : PS2) : List Nat × PS2 :=
  (s.kbd.keys, s)

/-- `ps2_state_changed`: returns `g_state_changed` and the unchanged
state. -/
def ps2_state_changed (s : PS2) : Bool × PS2 :=
  (s.kbd.changed, s)

/-- `ps2_clear_changed`: assigns only `g_state_changed = false`. -/
def ps2_clear_changed (s : PS2) : PS2 :=
  { s with kbd := { s.kbd with changed := false } }

/-- One serial clock pulse delivering data level `b`: a poll with the
clock high followed by a poll with the clock low, so the second poll is
the falling edge that samples `b`. -/
def feedBit (b : Bool) (s : PS2) : PS2 :=
  ps2_task false b (ps2_task true b s)

/-- Feed a list of data levels, one falling edge each. -/
def feedBits (bits : List Bool) (s : PS2) : PS2 :=
  bits.foldl (fun st b => feedBit b st) s

/-- The value of a list of bits, least-significant first. -/
def bitsVal : List Bool → Nat
  | [] => 0
  | b :: bs => (if b then 1 else 0) + 2 * bitsVal bs

/-- The 11 data levels of a well-formed frame carrying byte `B`:
start bit 0, eight data bits LSB-first, parity level `p`, stop bit 1. -/
def frameBits (B : Nat) (p : Bool) : List Bool :=
  [false, B.testBit 0, B.testBit 1, B.testBit 2, B.testBit 3,
   B.testBit 4, B.testBit 5, B.testBit 6, B.testBit 7, p, true]

/-- Feed one complete well-formed frame carrying byte `B` (even parity
level fixed to `false`; C5 shows the parity level is irrelevant). -/
def feedFrame (B : Nat) (s : PS2) : PS2 :=
  feedBits (frameBits B false) s

/-- Run a sequence of polls, each a (clock level, data level) sample. -/
def runPolls (samples : List (Bool × Bool)) (s : PS2) : PS2 :=
  samples.foldl (fun st cd => ps2_task cd.1 cd.2 st) s

/-- Whether the identity of `hid_code` is currently untracked in `s`:
for a modifier sentinel its bit is clear, otherwise the (Caps-remapped)
keycode is absent from the `keys` array. -/
def notTracked (hid_code : Nat) (s : KState) : Bool :=
  if get_modifier_mask hid_code ≠ 0 then
    decide (s.modifiers &&& get_modifier_mask hid_code = 0)
  else
    decide (capsRemap hid_code ∉ s.keys)

/-! ### Bit-arithmetic helpers -/

theorem lor128_fin : ∀ x : Fin 128, x.val ||| 128 = x.val + 128 := by decide

theorem shiftIn_val (bv : Nat) (b : Bool) (h : bv < 256) :
    shiftIn bv b = bv / 2 + (if b then 128 else 0) := by
  cases b with
  | false => simp [shiftIn, Nat.shiftRight_one]
  | true =>
    have h2 : bv / 2 < 128 := by omega
    simpa [shiftIn, Nat.shiftRight_one] using lor128_fin ⟨bv / 2, h2⟩

theorem shiftIn_lt (bv : Nat) (b : Bool) (h : bv < 256) : shiftIn bv b < 256 := by
  rw [shiftIn_val bv b h]
  cases b <;> simp <;> omega

theorem shift_arith (bv V k c : Nat) (hk : k ≤ 7) :
    (bv / 2 + c * 128) / 2 ^ k + V * 2 ^ (8 - k) =
      bv / 2 ^ (k + 1) + (c + 2 * V) * 2 ^ (8 - (k + 1)) := by
  have hsum : 7 - k + k = 7 := by omega
  have h128 : (128 : Nat) = 2 ^ (7 - k) * 2 ^ k := by
    rw [← pow_add, hsum]; norm_num
  have h8k : 8 - k = (7 - k) + 1 := by omega
  have h8k1 : 8 - (k + 1) = 7 - k := by omega
  have hdd : bv / 2 / 2 ^ k = bv / 2 ^ (k + 1) := by
    rw [Nat.div_div_eq_div_mul, pow_succ']
  rw [h128, ← mul_assoc, Nat.add_mul_div_right _ _ (Nat.pos_pow_of_pos k (by norm_num)),
    hdd, h8k, h8k1, pow_succ']
  ring

theorem foldl_shiftIn (l : List Bool) (bv : Nat) (hl : l.length ≤ 8) (hbv : bv < 256) :
    l.foldl shiftIn bv = bv / 2 ^ l.length + bitsVal l * 2 ^ (8 - l.length) := by
  induction l generalizing bv with
  | nil => simp [bitsVal]
  | cons b bs ih =>
    have hlen : bs.length ≤ 8 := by simp at hl; omega
    have hk : bs.length ≤ 7 := by simp at hl; omega
    have step : (b :: bs).foldl shiftIn bv = bs.foldl shiftIn (shiftIn bv b) := rfl
    rw [step, ih (shiftIn bv b) hlen (shiftIn_lt bv b hbv), shiftIn_val bv b hbv]
    have hc : (if b then (128 : Nat) else 0) = (if b then 1 else 0) * 128 := by
      cases b <;> simp
    rw [hc, shift_arith bv (bitsVal bs) bs.length (if b then 1 else 0) hk]
    simp [bitsVal]

theorem foldl_shiftIn_eight (d1 d2 d3 d4 d5 d6 d7 d8 : Bool) (bv : Nat) (hbv : bv < 256) :
    [d1, d2, d3, d4, d5, d6, d7, d8].foldl shiftIn bv =
      bitsVal [d1, d2, d3, d4, d5, d6, d7, d8] := by
  have h := foldl_shiftIn [d1, d2, d3, d4, d5, d6, d7, d8] bv (by simp) hbv
  simpa [Nat.div_eq_of_lt hbv] using h

theorem bitsVal_testBits : ∀ B : Fin 256,
    bitsVal [B.val.testBit 0, B.val.testBit 1, B.val.testBit 2, B.val.testBit 3,
      B.val.testBit 4, B.val.testBit 5, B.val.testBit 6, B.val.testBit 7] = B.val := by
  decide

/-! ### Frame stepping -/

theorem feedBits_frame (s : PS2) (b0 d1 d2 d3 d4 d5 d6 d7 d8 p q : Bool)
    (h0 : s.bit_index = 0) (hbv : s.byte_value < 256) :
    feedBits [b0, d1, d2, d3, d4, d5, d6, d7, d8, p, q] s =
      stop_step false
        { s with byte_value := bitsVal [d1, d2, d3, d4, d5, d6, d7, d8]
                 bit_index := 10
                 last_clk := true } := by
  have hv := foldl_shiftIn_eight d1 d2 d3 d4 d5 d6 d7 d8 s.byte_value hbv
  rw [← hv]
  simp [feedBits, feedBit, ps2_task, h0, List.foldl]

theorem feedFrame_eq (B : Nat) (s : PS2) (hB : B < 256)
    (h0 : s.bit_index = 0) (hbv : s.byte_value < 256) :
    feedFrame B s =
      stop_step false { s with byte_value := B, bit_index := 10, last_clk := true } := by
  have h := feedBits_frame s false (B.testBit 0) (B.testBit 1) (B.testBit 2) (B.testBit 3)
    (B.testBit 4) (B.testBit 5) (B.testBit 6) (B.testBit 7) false true h0 hbv
  have hb : bitsVal [B.testBit 0, B.testBit 1, B.testBit 2, B.testBit 3,
      B.testBit 4, B.testBit 5, B.testBit 6, B.testBit 7] = B := bitsVal_testBits ⟨B, hB⟩
  rw [feedFrame, frameBits, h, hb]

/-! ### Modifier-byte bit arithmetic (all 8-bit values) -/

set_option maxHeartbeats 1000000 in
theorem or_and_self : ∀ m : Fin 256, ∀ i : Fin 8,
    (m.val ||| 2 ^ i.val) &&& 2 ^ i.val ≠ 0 := by
  decide

set_option maxHeartbeats 1000000 in
theorem or_and_compl : ∀ m : Fin 256, ∀ i : Fin 8, m.val &&& 2 ^ i.val = 0 →
    (m.val ||| 2 ^ i.val) &&& (255 ^^^ 2 ^ i.val) = m.val := by
  decide

/-- Every non-zero modifier mask returned by `get_modifier_mask` is a single
bit of the 8-bit modifier byte. -/
theorem gmm_cases (hid_code : Nat) :
    get_modifier_mask hid_code = 0 ∨
      ∃ i : Fin 8, get_modifier_mask hid_code = 2 ^ i.val := by
  unfold get_modifier_mask
  split_ifs
  · exact Or.inr ⟨⟨2, by norm_num⟩, by norm_num⟩
  · exact Or.inr ⟨⟨1, by norm_num⟩, by norm_num⟩
  · exact Or.inr ⟨⟨0, by norm_num⟩, by norm_num⟩
  · exact Or.inl rfl
  · exact Or.inr ⟨⟨5, by norm_num⟩, by norm_num⟩
  · exact Or.inr ⟨⟨6, by norm_num⟩, by norm_num⟩
  · exact Or.inr ⟨⟨4, by norm_num⟩, by norm_num⟩
  · exact Or.inr ⟨⟨3, by norm_num⟩, by norm_num⟩
  · exact Or.inr ⟨⟨7, by norm_num⟩, by norm_num⟩
  · exact Or.inl rfl

/-! ### Key-slot list lemmas -/

theorem insertFirstZero_mem (l : List Nat) (hid : Nat) :
    ∀ l2, insertFirstZero l hid = some l2 → hid ∈ l2 := by
  induction l with
  | nil => intro l2 h; simp [insertFirstZero] at h
  | cons k ks ih =>
    intro l2 h
    by_cases hk : k = 0
    · simp [insertFirstZero, hk] at h
      simp [← h]
    · simp [insertFirstZero, hk] at h
      obtain ⟨t, ht, rfl⟩ := h
      exact List.mem_cons_of_mem k (ih t ht)

theorem removeFirst_none (l : List Nat) (hid : Nat) (hmem : hid ∉ l) :
    removeFirst l hid = none := by
  induction l with
  | nil => simp [removeFirst]
  | cons k ks ih =>
    simp at hmem
    have hk2 : ¬ k = hid := fun h => hmem.1 h.symm
    simp [removeFirst, hk2, ih hmem.2]

theorem remove_insert (l : List Nat) (hid : Nat) (hmem : hid ∉ l) :
    ∀ l2, insertFirstZero l hid = some l2 → removeFirst l2 hid = some l := by
  induction l with
  | nil => intro l2 h; simp [insertFirstZero] at h
  | cons k ks ih =>
    intro l2 h
    simp at hmem
    by_cases hk : k = 0
    · simp [insertFirstZero, hk] at h
      simp [← h, removeFirst, hk]
    · simp [insertFirstZero, hk] at h
      obtain ⟨t, ht, rfl⟩ := h
      have hk2 : ¬ k = hid := fun h2 => hmem.1 h2.symm
      simp [removeFirst, hk2, ih hmem.2 t ht]

/-! ### Tracker lemmas -/

/-- Pressing an identity that is untracked and then releasing it restores
both `modifiers` and `keys`. -/
theorem press_release_untracked (hid_code : Nat) (s : KState) (hm : s.modifiers < 256)
    (hnt : notTracked hid_code s = true) :
    (release_key hid_code (press_key hid_code s)).modifiers = s.modifiers ∧
    (release_key hid_code (press_key hid_code s)).keys = s.keys := by
  by_cases h0 : hid_code = 0
  · simp [press_key, release_key, h0]
  rcases gmm_cases hid_code with hz | ⟨i, hmask⟩
  · have hmem : capsRemap hid_code ∉ s.keys := by
      unfold notTracked at hnt
      simp [hz] at hnt
      exact hnt
    cases hins : insertFirstZero s.keys (capsRemap hid_code) with
    | none =>
      simp [press_key, release_key, h0, hz, hmem, hins, removeFirst_none s.keys _ hmem]
    | some ks =>
      simp [press_key, release_key, h0, hz, hmem, hins,
        remove_insert s.keys (capsRemap hid_code) hmem ks hins]
  · have hmz : get_modifier_mask hid_code ≠ 0 := by
      rw [hmask]
      positivity
    have hclear : s.modifiers &&& get_modifier_mask hid_code = 0 := by
      unfold notTracked at hnt
      rw [if_pos hmz] at hnt
      exact of_decide_eq_true hnt
    have hclear2 : s.modifiers &&& 2 ^ i.val = 0 := by rw [← hmask]; exact hclear
    have h1 := or_and_self ⟨s.modifiers, hm⟩ i
    have h2 := or_and_compl ⟨s.modifiers, hm⟩ i hclear2
    simp only [Fin.val_mk] at h1 h2
    simp [press_key, release_key, h0, hmz, hmask, hclear2, h1, h2]

/-- The Keyboard State right after `ps2_init`. -/
def kbd0 : KState := { modifiers := 0, keys := [0, 0, 0, 0, 0, 0], changed := false }

/-- A state in which the "A" keycode (0x04) is already held. -/
def kbdA : KState := { modifiers := 0, keys := [0x04, 0, 0, 0, 0, 0], changed := false }

/-- C2, as frozen, fails on the code: starting from a Keyboard State that
already holds the "A" keycode, dispatching a press of the mapped scancode
0x1C (a no-op, A already present) and then its release (which removes A)
does not restore `keys`. -/
theorem c2_counterexample :
    ¬ ((handle_scancode 0x1C true false (handle_scancode 0x1C false false kbdA)).keys =
        kbdA.keys ∧
      (handle_scancode 0x1C true false (handle_scancode 0x1C false false kbdA)).modifiers =
        kbdA.modifiers) := by
  decide

/-- C2 (amended): for every mapped scancode S, a press of S followed by a
release of S (same `is_extended` flag) restores `keys` and `modifiers`,
for every starting Keyboard State in which the translated identity is not
already tracked (modifier bit clear, resp. key identity absent). -/
theorem c2_round_trip (s : KState) (hm : s.modifiers < 256) (S : Nat) (e : Bool)
    (hmap : mapScancode e S ≠ 0) (hnt : notTracked (mapScancode e S) s = true) :
    (handle_scancode S true e (handle_scancode S false e s)).keys = s.keys ∧
    (handle_scancode S true e (handle_scancode S false e s)).modifiers = s.modifiers := by
  have h := press_release_untracked (mapScancode e S) s hm hnt
  unfold handle_scancode
  simp only [Bool.false_eq_true, if_false, if_true, hmap, ite_false]
  exact ⟨h.2, h.1⟩

/-- C2 witness: the amended round-trip at scancode 0x1C from the
freshly initialized state. -/
theorem c2_round_trip_witness :
    (handle_scancode 0x1C true false (handle_scancode 0x1C false false kbd0)).keys =
        kbd0.keys ∧
      (handle_scancode 0x1C true false (handle_scancode 0x1C false false kbd0)).modifiers =
        kbd0.modifiers :=
  c2_round_trip kbd0 (by decide) 0x1C false (by decide) (by decide)

/-- C9: a scancode whose translation-table entry is 0 leaves the whole
Keyboard State unchanged, for press and release alike. -/
theorem c9_unknown_scancode_noop (s : KState) (code : Nat) (is_brk is_ext : Bool)
    (hmap : mapScancode is_ext code = 0) :
    handle_scancode code is_brk is_ext s = s := by
  unfold handle_scancode
  simp [hmap]

/-- C9 witness: scancode 0x02 is unmapped in the plain table. -/
theorem c9_unknown_scancode_noop_witness :
    mapScancode false 0x02 = 0 ∧ handle_scancode 0x02 false false kbd0 = kbd0 :=
  ⟨by decide, c9_unknown_scancode_noop kbd0 0x02 false false (by decide)⟩

/-- C10: the three observers return the state unchanged, and
`ps2_clear_changed` mutates nothing but the changed flag, which it sets
to false. -/
theorem c10_observer_purity (s : PS2) :
    (ps2_get_modifiers s).2 = s ∧
    (ps2_get_keys s).2 = s ∧
    (ps2_state_changed s).2 = s ∧
    (ps2_clear_changed s).kbd.modifiers = s.kbd.modifiers ∧
    (ps2_clear_changed s).kbd.keys = s.kbd.keys ∧
    (ps2_clear_changed s).bit_index = s.bit_index ∧
    (ps2_clear_changed s).byte_value = s.byte_value ∧
    (ps2_clear_changed s).break_pending = s.break_pending ∧
    (ps2_clear_changed s).extended_pending = s.extended_pending ∧
    (ps2_clear_changed s).last_clk = s.last_clk ∧
    (ps2_clear_changed s).kbd.changed = false := by
  simp [ps2_get_modifiers, ps2_get_keys, ps2_state_changed, ps2_clear_changed]

/-- A second press of the same identity is a no-op. -/
theorem press_key_idem (hid_code : Nat) (s : KState) (hm : s.modifiers < 256) :
    press_key hid_code (press_key hid_code s) = press_key hid_code s := by
  by_cases h0 : hid_code = 0
  · simp [press_key, h0]
  rcases gmm_cases hid_code with hz | ⟨i, hmask⟩
  · by_cases hmem : capsRemap hid_code ∈ s.keys
    · have h1 : press_key hid_code s = s := by simp [press_key, h0, hz, hmem]
      rw [h1]
      exact h1
    · cases hins : insertFirstZero s.keys (capsRemap hid_code) with
      | none =>
        have h1 : press_key hid_code s = s := by simp [press_key, h0, hz, hmem, hins]
        rw [h1]
        exact h1
      | some ks =>
        have h1 : press_key hid_code s = { s with keys := ks, changed := true } := by
          simp [press_key, h0, hz, hmem, hins]
        have hmem2 : capsRemap hid_code ∈ ks := insertFirstZero_mem s.keys _ ks hins
        rw [h1]
        simp [press_key, h0, hz, hmem2]
  · have hmz : get_modifier_mask hid_code ≠ 0 := by
      rw [hmask]
      positivity
    by_cases hset : s.modifiers &&& get_modifier_mask hid_code = 0
    · have h1 : press_key hid_code s =
          { s with modifiers := s.modifiers ||| get_modifier_mask hid_code
                   changed := true } := by
        simp [press_key, h0, hmz, hset]
      have h2 := or_and_self ⟨s.modifiers, hm⟩ i
      simp only [Fin.val_mk] at h2
      rw [h1]
      simp [press_key, h0, hmz, hmask, h2]
    · have h1 : press_key hid_code s = s := by simp [press_key, h0, hmz, hset]
      rw [h1]
      exact h1

/-- A release of an untracked identity is a no-op. -/
theorem release_untracked (hid_code : Nat) (s : KState)
    (hnt : notTracked hid_code s = true) :
    release_key hid_code s = s := by
  by_cases h0 : hid_code = 0
  · simp [release_key, h0]
  rcases gmm_cases hid_code with hz | ⟨i, hmask⟩
  · have hmem : capsRemap hid_code ∉ s.keys := by
      unfold notTracked at hnt
      simp [hz] at hnt
      exact hnt
    simp [release_key, h0, hz, removeFirst_none s.keys _ hmem]
  · have hmz : get_modifier_mask hid_code ≠ 0 := by
      rw [hmask]
      positivity
    have hclear : s.modifiers &&& get_modifier_mask hid_code = 0 := by
      unfold notTracked at hnt
      rw [if_pos hmz] at hnt
      exact of_decide_eq_true hnt
    simp [release_key, h0, hmz, hclear]

/-- C4: dispatching the same press twice changes the Keyboard State only
on the first dispatch — the second one leaves the whole state, `changed`
flag included, unchanged; and dispatching a release for an identity that
is not currently tracked leaves the state unchanged (so never sets
`changed`). -/
theorem c4_idempotent_press_release (s : KState) (hm : s.modifiers < 256) (S : Nat)
    (e : Bool) (hmap : mapScancode e S ≠ 0) :
    handle_scancode S false e (handle_scancode S false e s) =
      handle_scancode S false e s ∧
    (notTracked (mapScancode e S) s = true → handle_scancode S true e s = s) := by
  constructor
  · unfold handle_scancode
    simp only [Bool.false_eq_true, if_false, hmap, ite_false]
    exact press_key_idem (mapScancode e S) s hm
  · intro hnt
    unfold handle_scancode
    simp only [if_true, hmap, ite_false]
    exact release_untracked (mapScancode e S) s hnt

/-- C4 witness: double press of scancode 0x1C and release of the untracked
0x1C from the freshly initialized state. -/
theorem c4_idempotent_press_release_witness :
    handle_scancode 0x1C false false (handle_scancode 0x1C false false kbd0) =
      handle_scancode 0x1C false false kbd0 ∧
    (notTracked (mapScancode false 0x1C) kbd0 = true →
      handle_scancode 0x1C true false kbd0 = kbd0) :=
  c4_idempotent_press_release kbd0 (by decide) 0x1C false (by decide)

/-- C7: modifier presses/releases never change `keys`, ordinary presses/
releases never change `modifiers`, and the Shift-A-unshift scenario ends
with the LeftShift bit clear while "A" (0x04) is still held. -/
theorem c7_modifier_independence (s : KState) (hid_code : Nat) :
    (get_modifier_mask hid_code ≠ 0 →
      (press_key hid_code s).keys = s.keys ∧
      (release_key hid_code s).keys = s.keys) ∧
    (get_modifier_mask hid_code = 0 →
      (press_key hid_code s).modifiers = s.modifiers ∧
      (release_key hid_code s).modifiers = s.modifiers) ∧
    ((handle_scancode 0x12 true false (handle_scancode 0x1C false false
        (handle_scancode 0x12 false false kbd0))).modifiers &&& 0x02 = 0 ∧
      0x04 ∈ (handle_scancode 0x12 true false (handle_scancode 0x1C false false
        (handle_scancode 0x12 false false kbd0))).keys) := by
  refine ⟨fun hmz => ?_, fun hz => ?_, by decide⟩
  · have h0 : hid_code ≠ 0 := by
      intro h
      rw [h] at hmz
      exact hmz (by decide)
    constructor
    · unfold press_key
      simp only [h0, hmz, if_false, if_true, ite_false, ite_true, if_neg, ne_eq,
        not_false_eq_true]
      split_ifs <;> rfl
    · unfold release_key
      simp only [h0, hmz, ne_eq, not_false_eq_true, ite_false, ite_true]
      split_ifs <;> rfl
  · by_cases h0 : hid_code = 0
    · simp [press_key, release_key, h0]
    constructor
    · unfold press_key
      simp only [h0, hz, ne_eq, not_true_eq_false, ite_false, if_false]
      by_cases hmem : capsRemap hid_code ∈ s.keys
      · simp [hmem]
      · simp only [hmem, ite_false, if_neg, not_false_eq_true]
        cases hins : insertFirstZero s.keys (capsRemap hid_code) <;> simp [hins]
    · unfold release_key
      simp only [h0, hz, ne_eq, not_true_eq_false, ite_false, if_false]
      cases hrem : removeFirst s.keys (capsRemap hid_code) <;> simp [hrem]

/-- C7 witness: Left Shift (sentinel 0xFE) never touches `keys`; "A"
(0x04) never touches `modifiers`. -/
theorem c7_modifier_independence_witness :
    (get_modifier_mask 0xFE ≠ 0 →
      (press_key 0xFE kbd0).keys = kbd0.keys ∧
      (release_key 0xFE kbd0).keys = kbd0.keys) ∧
    (get_modifier_mask 0xFE = 0 →
      (press_key 0xFE kbd0).modifiers = kbd0.modifiers ∧
      (release_key 0xFE kbd0).modifiers = kbd0.modifiers) ∧
    ((handle_scancode 0x12 true false (handle_scancode 0x1C false false
        (handle_scancode 0x12 false false kbd0))).modifiers &&& 0x02 = 0 ∧
      0x04 ∈ (handle_scancode 0x12 true false (handle_scancode 0x1C false false
        (handle_scancode 0x12 false false kbd0))).keys) :=
  c7_modifier_independence kbd0 0xFE

/-- `press_key` either leaves the state untouched or marks it changed. -/
theorem press_key_cases (hid_code : Nat) (s : KState) :
    press_key hid_code s = s ∨ (press_key hid_code s).changed = true := by
  by_cases h0 : hid_code = 0
  · left
    simp [press_key, h0]
  by_cases hmz : get_modifier_mask hid_code = 0
  · by_cases hmem : capsRemap hid_code ∈ s.keys
    · left
      simp [press_key, h0, hmz, hmem]
    · cases hins : insertFirstZero s.keys (capsRemap hid_code) with
      | none =>
        left
        simp [press_key, h0, hmz, hmem, hins]
      | some ks =>
        right
        simp [press_key, h0, hmz, hmem, hins]
  · by_cases hset : s.modifiers &&& get_modifier_mask hid_code = 0
    · right
      simp [press_key, h0, hmz, hset]
    · left
      simp [press_key, h0, hmz, hset]

/-- `release_key` either leaves the state untouched or marks it changed. -/
theorem release_key_cases (hid_code : Nat) (s : KState) :
    release_key hid_code s = s ∨ (release_key hid_code s).changed = true := by
  by_cases h0 : hid_code = 0
  · left
    simp [release_key, h0]
  by_cases hmz : get_modifier_mask hid_code = 0
  · cases hrem : removeFirst s.keys (capsRemap hid_code) with
    | none =>
      left
      simp [release_key, h0, hmz, hrem]
    | some ks =>
      right
      simp [release_key, h0, hmz, hrem]
  · by_cases hset : s.modifiers &&& get_modifier_mask hid_code = 0
    · left
      simp [release_key, h0, hmz, hset]
    · right
      simp [release_key, h0, hmz, hset]

/-- `handle_scancode` either leaves the state untouched or marks it
changed. -/
theorem handle_scancode_cases (code : Nat) (is_brk is_ext : Bool) (s : KState) :
    handle_scancode code is_brk is_ext s = s ∨
      (handle_scancode code is_brk is_ext s).changed = true := by
  unfold handle_scancode
  by_cases hmap : mapScancode is_ext code = 0
  · left
    simp [hmap]
  cases is_brk with
  | false =>
    simpa [hmap] using press_key_cases (mapScancode is_ext code) s
  | true =>
    simpa [hmap] using release_key_cases (mapScancode is_ext code) s

/-- `ps2_task` either leaves the Keyboard State untouched or marks it
changed. -/
theorem ps2_task_kbd_cases (clk data : Bool) (s : PS2) :
    (ps2_task clk data s).kbd = s.kbd ∨ (ps2_task clk data s).kbd.changed = true := by
  unfold ps2_task stop_step
  split_ifs <;> try (left; rfl)
  by_cases hf : s.byte_value = 240
  · left
    simp [hf]
  by_cases he : s.byte_value = 224
  · left
    simp [hf, he]
  simpa [hf, he] using
    handle_scancode_cases s.byte_value s.break_pending s.extended_pending s.kbd

/-- C8: any poll or dispatch step that mutates `modifiers` or `keys` sets
the changed flag; no poll or dispatch step ever clears an already-set
changed flag; the observers return the state unchanged and
`ps2_clear_changed` is the operation that makes the flag false. -/
theorem c8_changed_flag_protocol (s : PS2) (k : KState) (clk data : Bool) (code : Nat)
    (is_brk is_ext : Bool) :
    ((ps2_task clk data s).kbd.modifiers ≠ s.kbd.modifiers ∨
        (ps2_task clk data s).kbd.keys ≠ s.kbd.keys →
      (ps2_task clk data s).kbd.changed = true) ∧
    (s.kbd.changed = true → (ps2_task clk data s).kbd.changed = true) ∧
    ((handle_scancode code is_brk is_ext k).modifiers ≠ k.modifiers ∨
        (handle_scancode code is_brk is_ext k).keys ≠ k.keys →
      (handle_scancode code is_brk is_ext k).changed = true) ∧
    (k.changed = true → (handle_scancode code is_brk is_ext k).changed = true) ∧
    (ps2_clear_changed s).kbd.changed = false ∧
    (ps2_get_modifiers s).2 = s ∧ (ps2_get_keys s).2 = s ∧ (ps2_state_changed s).2 = s := by
  refine ⟨?_, ?_, ?_, ?_, rfl, rfl, rfl, rfl⟩
  · intro hmut
    rcases ps2_task_kbd_cases clk data s with h | h
    · rw [h] at hmut
      rcases hmut with h2 | h2 <;> exact absurd rfl h2
    · exact h
  · intro hch
    rcases ps2_task_kbd_cases clk data s with h | h
    · rw [h]
      exact hch
    · exact h
  · intro hmut
    rcases handle_scancode_cases code is_brk is_ext k with h | h
    · rw [h] at hmut
      rcases hmut with h2 | h2 <;> exact absurd rfl h2
    · exact h
  · intro hch
    rcases handle_scancode_cases code is_brk is_ext k with h | h
    · rw [h]
      exact hch
    · exact h

/-- C8 witness: the protocol at a concrete state and step (a falling edge
from the initial state, and a dispatch of the "A" make code). -/
theorem c8_changed_flag_protocol_witness :
    ((ps2_task false true (ps2_init true)).kbd.modifiers ≠ (ps2_init true).kbd.modifiers ∨
        (ps2_task false true (ps2_init true)).kbd.keys ≠ (ps2_init true).kbd.keys →
      (ps2_task false true (ps2_init true)).kbd.changed = true) ∧
    ((ps2_init true).kbd.changed = true →
      (ps2_task false true (ps2_init true)).kbd.changed = true) ∧
    ((handle_scancode 0x1C false false kbd0).modifiers ≠ kbd0.modifiers ∨
        (handle_scancode 0x1C false false kbd0).keys ≠ kbd0.keys →
      (handle_scancode 0x1C false false kbd0).changed = true) ∧
    (kbd0.changed = true → (handle_scancode 0x1C false false kbd0).changed = true) ∧
    (ps2_clear_changed (ps2_init true)).kbd.changed = false ∧
    (ps2_get_modifiers (ps2_init true)).2 = ps2_init true ∧
    (ps2_get_keys (ps2_init true)).2 = ps2_init true ∧
    (ps2_state_changed (ps2_init true)).2 = ps2_init true :=
  c8_changed_flag_protocol (ps2_init true) kbd0 false true 0x1C false false

/-- The stop-bit branch always resets `bit_index` to 0. -/
theorem stop_step_bit_index (clk : Bool) (s : PS2) : (stop_step clk s).bit_index = 0 := by
  simp only [stop_step]
  split_ifs <;> rfl

/-- Closed form of the `bit_index` transition of a single poll. -/
theorem ps2_task_bit_index (clk data : Bool) (s : PS2) :
    (ps2_task clk data s).bit_index =
      if s.last_clk = true ∧ clk = false then
        (if s.bit_index = 10 then 0 else s.bit_index + 1)
      else s.bit_index := by
  unfold ps2_task
  split_ifs <;> simp_all [stop_step_bit_index]

/-- One poll keeps `bit_index` within [0,10]. -/
theorem ps2_task_bit_le (clk data : Bool) (s : PS2) (h : s.bit_index ≤ 10) :
    (ps2_task clk data s).bit_index ≤ 10 := by
  rw [ps2_task_bit_index]
  split_ifs <;> omega

/-- Any poll sequence keeps `bit_index` within [0,10]. -/
theorem runPolls_bit_le (samples : List (Bool × Bool)) (s : PS2)
    (h : s.bit_index ≤ 10) : (runPolls samples s).bit_index ≤ 10 := by
  induction samples generalizing s with
  | nil => simpa [runPolls] using h
  | cons cd rest ih =>
    have hstep : runPolls (cd :: rest) s = runPolls rest (ps2_task cd.1 cd.2 s) := rfl
    rw [hstep]
    exact ih _ (ps2_task_bit_le cd.1 cd.2 s h)

/-- C6: after initialization `bit_index` stays in [0,10] over every poll
sequence; a falling-edge poll resets it to 0 exactly when it equals 10 and
increments it by 1 otherwise, regardless of the sampled data level; a poll
without a falling edge leaves it unchanged. -/
theorem c6_bit_index_invariant (samples : List (Bool × Bool)) (c0 : Bool) (s : PS2)
    (clk data : Bool) :
    (runPolls samples (ps2_init c0)).bit_index ≤ 10 ∧
    (s.last_clk = true ∧ clk = false →
      (ps2_task clk data s).bit_index =
        if s.bit_index = 10 then 0 else s.bit_index + 1) ∧
    (¬ (s.last_clk = true ∧ clk = false) →
      (ps2_task clk data s).bit_index = s.bit_index) := by
  refine ⟨runPolls_bit_le samples (ps2_init c0) (by simp [ps2_init]), ?_, ?_⟩
  · intro hedge
    rw [ps2_task_bit_index, if_pos hedge]
  · intro hedge
    rw [ps2_task_bit_index, if_neg hedge]

/-- C6 witness: a concrete two-sample run, plus the falling-edge and
no-edge characterizations at the initial state. -/
theorem c6_bit_index_invariant_witness :
    (runPolls [(false, true), (true, false)] (ps2_init true)).bit_index ≤ 10 ∧
    ((ps2_init true).last_clk = true ∧ false = false →
      (ps2_task false true (ps2_init true)).bit_index =
        if (ps2_init true).bit_index = 10 then 0 else (ps2_init true).bit_index + 1) ∧
    (¬ ((ps2_init true).last_clk = true ∧ false = false) →
      (ps2_task false true (ps2_init true)).bit_index = (ps2_init true).bit_index) :=
  c6_bit_index_invariant [(false, true), (true, false)] true (ps2_init true) false true

/-- C1: a frame carrying 0xF0 sets `break_pending` and dispatches nothing,
a frame carrying 0xE0 sets `extended_pending` and dispatches nothing, a
frame carrying any other byte S is dispatched as
(S, break_pending, extended_pending) after which both flags are cleared,
and from both flags clear the frame sequence 0xE0, 0xF0, S acts on the
Keyboard State exactly like `handle_scancode S true true`. -/
theorem c1_prefix_accumulation (s : PS2) (h0 : s.bit_index = 0)
    (hbv : s.byte_value < 256) (S : Nat) (hS : S < 256) (hSf : S ≠ 0xF0)
    (hSe : S ≠ 0xE0) :
    ((feedFrame 0xF0 s).break_pending = true ∧
      (feedFrame 0xF0 s).extended_pending = s.extended_pending ∧
      (feedFrame 0xF0 s).kbd = s.kbd) ∧
    ((feedFrame 0xE0 s).extended_pending = true ∧
      (feedFrame 0xE0 s).break_pending = s.break_pending ∧
      (feedFrame 0xE0 s).kbd = s.kbd) ∧
    ((feedFrame S s).kbd =
        handle_scancode S s.break_pending s.extended_pending s.kbd ∧
      (feedFrame S s).break_pending = false ∧
      (feedFrame S s).extended_pending = false) ∧
    (s.break_pending = false → s.extended_pending = false →
      (feedFrame S (feedFrame 0xF0 (feedFrame 0xE0 s))).kbd =
        handle_scancode S true true s.kbd) := by
  have e1 := feedFrame_eq 0xF0 s (by norm_num) h0 hbv
  have e2 := feedFrame_eq 0xE0 s (by norm_num) h0 hbv
  have e3 := feedFrame_eq S s hS h0 hbv
  refine ⟨?_, ?_, ?_, ?_⟩
  · rw [e1]
    simp [stop_step]
  · rw [e2]
    simp [stop_step]
  · rw [e3]
    simp [stop_step, hSf, hSe]
  · intro hbp hep
    have e2c : feedFrame 0xE0 s =
        { s with extended_pending := true, bit_index := 0, byte_value := 0,
                 last_clk := false } := by
      rw [e2]
      simp [stop_step]
    have e4 := feedFrame_eq 0xF0
      ({ s with extended_pending := true, bit_index := 0, byte_value := 0,
                last_clk := false }) (by norm_num) rfl (by simp)
    have e4c : feedFrame 0xF0
        ({ s with extended_pending := true, bit_index := 0, byte_value := 0,
                  last_clk := false }) =
        { s with break_pending := true, extended_pending := true, bit_index := 0,
                 byte_value := 0, last_clk := false } := by
      rw [e4]
      simp [stop_step]
    have e5 := feedFrame_eq S
      ({ s with break_pending := true, extended_pending := true, bit_index := 0,
                byte_value := 0, last_clk := false }) hS rfl (by simp)
    rw [e2c, e4c, e5]
    simp [stop_step, hSf, hSe]

/-- C1 witness: the 0xE0, 0xF0, 0x1C frame sequence from the initial
state. -/
theorem c1_prefix_accumulation_witness :
    ((feedFrame 0xF0 (ps2_init true)).break_pending = true ∧
      (feedFrame 0xF0 (ps2_init true)).extended_pending =
        (ps2_init true).extended_pending ∧
      (feedFrame 0xF0 (ps2_init true)).kbd = (ps2_init true).kbd) ∧
    ((feedFrame 0xE0 (ps2_init true)).extended_pending = true ∧
      (feedFrame 0xE0 (ps2_init true)).break_pending =
        (ps2_init true).break_pending ∧
      (feedFrame 0xE0 (ps2_init true)).kbd = (ps2_init true).kbd) ∧
    ((feedFrame 0x1C (ps2_init true)).kbd =
        handle_scancode 0x1C (ps2_init true).break_pending
          (ps2_init true).extended_pending (ps2_init true).kbd ∧
      (feedFrame 0x1C (ps2_init true)).break_pending = false ∧
      (feedFrame 0x1C (ps2_init true)).extended_pending = false) ∧
    ((ps2_init true).break_pending = false → (ps2_init true).extended_pending = false →
      (feedFrame 0x1C (feedFrame 0xF0 (feedFrame 0xE0 (ps2_init true)))).kbd =
        handle_scancode 0x1C true true (ps2_init true).kbd) :=
  c1_prefix_accumulation (ps2_init true) rfl (by decide) 0x1C (by norm_num)
    (by norm_num) (by norm_num)

/-- Bit `i` of the value of a bit list is the list's `i`-th element. -/
theorem bitsVal_testBit (l : List Bool) :
    ∀ (i : Nat) (h : i < l.length), (bitsVal l).testBit i = l.get ⟨i, h⟩ := by
  induction l with
  | nil => intro i h; simp at h
  | cons b bs ih =>
    intro i h
    cases i with
    | zero =>
      cases b <;> simp [bitsVal, Nat.testBit_zero]
    | succ j =>
      have hdiv : ((if b then 1 else 0) + 2 * bitsVal bs) / 2 = bitsVal bs := by
        cases b <;> simp <;> omega
      have hj : j < bs.length := by simpa using h
      calc (bitsVal (b :: bs)).testBit (j + 1)
          = ((bitsVal (b :: bs)) / 2).testBit j := Nat.testBit_succ _ _
        _ = (bitsVal bs).testBit j := by rw [bitsVal, hdiv]
        _ = bs.get ⟨j, hj⟩ := ih j hj
        _ = (b :: bs).get ⟨j + 1, h⟩ := rfl

/-- C5: an 11-falling-edge frame produces at its stop bit the byte whose
bit i-1 is frame data bit i (i in [1,8], LSB-first), and the produced byte
and the resulting state do not depend on the sampled start, parity, and
stop levels. -/
theorem c5_lsb_first_reconstruction (s : PS2) (h0 : s.bit_index = 0)
    (hbv : s.byte_value < 256)
    (b0 d1 d2 d3 d4 d5 d6 d7 d8 p q b0x px qx : Bool) :
    (feedBits [b0, d1, d2, d3, d4, d5, d6, d7, d8, p, q] s =
      stop_step false
        { s with byte_value := bitsVal [d1, d2, d3, d4, d5, d6, d7, d8],
                 bit_index := 10,
                 last_clk := true }) ∧
    ((bitsVal [d1, d2, d3, d4, d5, d6, d7, d8]).testBit 0 = d1 ∧
      (bitsVal [d1, d2, d3, d4, d5, d6, d7, d8]).testBit 1 = d2 ∧
      (bitsVal [d1, d2, d3, d4, d5, d6, d7, d8]).testBit 2 = d3 ∧
      (bitsVal [d1, d2, d3, d4, d5, d6, d7, d8]).testBit 3 = d4 ∧
      (bitsVal [d1, d2, d3, d4, d5, d6, d7, d8]).testBit 4 = d5 ∧
      (bitsVal [d1, d2, d3, d4, d5, d6, d7, d8]).testBit 5 = d6 ∧
      (bitsVal [d1, d2, d3, d4, d5, d6, d7, d8]).testBit 6 = d7 ∧
      (bitsVal [d1, d2, d3, d4, d5, d6, d7, d8]).testBit 7 = d8) ∧
    feedBits [b0, d1, d2, d3, d4, d5, d6, d7, d8, p, q] s =
      feedBits [b0x, d1, d2, d3, d4, d5, d6, d7, d8, px, qx] s := by
  have h1 := feedBits_frame s b0 d1 d2 d3 d4 d5 d6 d7 d8 p q h0 hbv
  have h2 := feedBits_frame s b0x d1 d2 d3 d4 d5 d6 d7 d8 px qx h0 hbv
  have hg := bitsVal_testBit [d1, d2, d3, d4, d5, d6, d7, d8]
  refine ⟨h1, ⟨?_, ?_, ?_, ?_, ?_, ?_, ?_, ?_⟩, by rw [h1, h2]⟩
  · simpa using hg 0 (by norm_num)
  · simpa using hg 1 (by norm_num)
  · simpa using hg 2 (by norm_num)
  · simpa using hg 3 (by norm_num)
  · simpa using hg 4 (by norm_num)
  · simpa using hg 5 (by norm_num)
  · simpa using hg 6 (by norm_num)
  · simpa using hg 7 (by norm_num)

/-- C5 witness: the frame for byte 0x1C with flipped start/parity/stop
levels in the second frame, from the initial state. -/
theorem c5_lsb_first_reconstruction_witness :
    (feedBits [false, false, false, true, true, true, false, false, false, false, true]
        (ps2_init true) =
      stop_step false
        { ps2_init true with
            byte_value := bitsVal [false, false, true, true, true, false, false, false],
            bit_index := 10,
            last_clk := true }) ∧
    ((bitsVal [false, false, true, true, true, false, false, false]).testBit 0 = false ∧
      (bitsVal [false, false, true, true, true, false, false, false]).testBit 1 = false ∧
      (bitsVal [false, false, true, true, true, false, false, false]).testBit 2 = true ∧
      (bitsVal [false, false, true, true, true, false, false, false]).testBit 3 = true ∧
      (bitsVal [false, false, true, true, true, false, false, false]).testBit 4 = true ∧
      (bitsVal [false, false, true, true, true, false, false, false]).testBit 5 = false ∧
      (bitsVal [false, false, true, true, true, false, false, false]).testBit 6 = false ∧
      (bitsVal [false, false, true, true, true, false, false, false]).testBit 7 = false) ∧
    feedBits [false, false, false, true, true, true, false, false, false, false, true]
        (ps2_init true) =
      feedBits [true, false, false, true, true, true, false, false, false, true, false]
        (ps2_init true) :=
  c5_lsb_first_reconstruction (ps2_init true) rfl (by decide)
    false false false true true true false false false false true true true false

/-- C3: from an empty keys array, pressing 6 distinct mapped ordinary
identities fills all 6 slots (exactly 6 non-zero slots), and a 7th
distinct ordinary press mutates nothing at all. -/
theorem c3_rollover_ceiling (k1 k2 k3 k4 k5 k6 k7 : Nat) (s : KState)
    (hkeys : s.keys = [0, 0, 0, 0, 0, 0])
    (hall : ∀ k ∈ [k1, k2, k3, k4, k5, k6, k7],
      k ≠ 0 ∧ get_modifier_mask k = 0 ∧ k ≠ 0xFC)
    (hnd : [k1, k2, k3, k4, k5, k6, k7].Nodup) :
    (press_key k6 (press_key k5 (press_key k4 (press_key k3
        (press_key k2 (press_key k1 s)))))).keys = [k1, k2, k3, k4, k5, k6] ∧
    (press_key k6 (press_key k5 (press_key k4 (press_key k3
        (press_key k2 (press_key k1 s)))))).keys.countP
        (fun k => decide (k ≠ 0)) = 6 ∧
    press_key k7 (press_key k6 (press_key k5 (press_key k4 (press_key k3
        (press_key k2 (press_key k1 s)))))) =
      press_key k6 (press_key k5 (press_key k4 (press_key k3
        (press_key k2 (press_key k1 s))))) := by
  obtain ⟨hz1, hm1, hc1⟩ := hall k1 (by simp)
  obtain ⟨hz2, hm2, hc2⟩ := hall k2 (by simp)
  obtain ⟨hz3, hm3, hc3⟩ := hall k3 (by simp)
  obtain ⟨hz4, hm4, hc4⟩ := hall k4 (by simp)
  obtain ⟨hz5, hm5, hc5⟩ := hall k5 (by simp)
  obtain ⟨hz6, hm6, hc6⟩ := hall k6 (by simp)
  obtain ⟨hz7, hm7, hc7⟩ := hall k7 (by simp)
  simp only [List.nodup_cons, List.mem_cons, List.not_mem_nil, or_false,
    List.mem_singleton, not_or, List.nodup_nil, not_false_eq_true, and_true] at hnd
  obtain ⟨⟨h12, h13, h14, h15, h16, h17⟩, ⟨h23, h24, h25, h26, h27⟩,
    ⟨h34, h35, h36, h37⟩, ⟨h45, h46, h47⟩, ⟨h56, h57⟩, h67⟩ := hnd
  have cr1 : capsRemap k1 = k1 := by simp [capsRemap, hc1]
  have cr2 : capsRemap k2 = k2 := by simp [capsRemap, hc2]
  have cr3 : capsRemap k3 = k3 := by simp [capsRemap, hc3]
  have cr4 : capsRemap k4 = k4 := by simp [capsRemap, hc4]
  have cr5 : capsRemap k5 = k5 := by simp [capsRemap, hc5]
  have cr6 : capsRemap k6 = k6 := by simp [capsRemap, hc6]
  have cr7 : capsRemap k7 = k7 := by simp [capsRemap, hc7]
  have p1 : press_key k1 s = { s with keys := [k1, 0, 0, 0, 0, 0], changed := true } := by
    simp [press_key, hz1, hm1, cr1, hkeys, insertFirstZero]
  have p2 : press_key k2 { s with keys := [k1, 0, 0, 0, 0, 0], changed := true } =
      { s with keys := [k1, k2, 0, 0, 0, 0], changed := true } := by
    simp [press_key, hz2, hm2, cr2, insertFirstZero, hz1, Ne.symm h12]
  have p3 : press_key k3 { s with keys := [k1, k2, 0, 0, 0, 0], changed := true } =
      { s with keys := [k1, k2, k3, 0, 0, 0], changed := true } := by
    simp [press_key, hz3, hm3, cr3, insertFirstZero, hz1, hz2, Ne.symm h13, Ne.symm h23]
  have p4 : press_key k4 { s with keys := [k1, k2, k3, 0, 0, 0], changed := true } =
      { s with keys := [k1, k2, k3, k4, 0, 0], changed := true } := by
    simp [press_key, hz4, hm4, cr4, insertFirstZero, hz1, hz2, hz3,
      Ne.symm h14, Ne.symm h24, Ne.symm h34]
  have p5 : press_key k5 { s with keys := [k1, k2, k3, k4, 0, 0], changed := true } =
      { s with keys := [k1, k2, k3, k4, k5, 0], changed := true } := by
    simp [press_key, hz5, hm5, cr5, insertFirstZero, hz1, hz2, hz3, hz4,
      Ne.symm h15, Ne.symm h25, Ne.symm h35, Ne.symm h45]
  have p6 : press_key k6 { s with keys := [k1, k2, k3, k4, k5, 0], changed := true } =
      { s with keys := [k1, k2, k3, k4, k5, k6], changed := true } := by
    simp [press_key, hz6, hm6, cr6, insertFirstZero, hz1, hz2, hz3, hz4, hz5,
      Ne.symm h16, Ne.symm h26, Ne.symm h36, Ne.symm h46, Ne.symm h56]
  have p7 : press_key k7 { s with keys := [k1, k2, k3, k4, k5, k6], changed := true } =
      { s with keys := [k1, k2, k3, k4, k5, k6], changed := true } := by
    simp [press_key, hz7, hm7, cr7, insertFirstZero, hz1, hz2, hz3, hz4, hz5, hz6,
      Ne.symm h17, Ne.symm h27, Ne.symm h37, Ne.symm h47, Ne.symm h57, Ne.symm h67]
  rw [p1, p2, p3, p4, p5, p6]
  refine ⟨rfl, ?_, p7⟩
  simp [List.countP_cons, hz1, hz2, hz3, hz4, hz5, hz6]

/-- C3 witness: the seven letter keycodes A..G. -/
theorem c3_rollover_ceiling_witness :
    (press_key 9 (press_key 8 (press_key 7 (press_key 6
        (press_key 5 (press_key 4 kbd0)))))).keys = [4, 5, 6, 7, 8, 9] ∧
    (press_key 9 (press_key 8 (press_key 7 (press_key 6
        (press_key 5 (press_key 4 kbd0)))))).keys.countP
        (fun k => decide (k ≠ 0)) = 6 ∧
    press_key 10 (press_key 9 (press_key 8 (press_key 7 (press_key 6
        (press_key 5 (press_key 4 kbd0)))))) =
      press_key 9 (press_key 8 (press_key 7 (press_key 6
        (press_key 5 (press_key 4 kbd0))))) :=
  c3_rollover_ceiling 4 5 6 7 8 9 10 kbd0 (by decide) (by decide) (by decide)

end Ps2
